import Mathlib

/-!
Shallow embedding of the notes-app server core: the authentication
middleware (`src/middleware/auth.js`), the JWT helper (`lib/jwt`), and the
note endpoints of the main server file (listing with its degradation
strategies, single/public views, and the mutating endpoints).  JavaScript
truthiness, the Supabase error signatures and the handler control flow are
modelled explicitly; external collaborators (the JWT verifier, the identity
authority, store failures) are oracle parameters.
-/

namespace NotesApp

/-! ## JavaScript string helpers -/

/-- Replacement of the first occurrence of `pat` in a character list. -/
def replaceFirstChars (pat rep : List Char) : List Char → List Char
  | [] => []
  | c :: rest =>
    if pat.isPrefixOf (c :: rest) then rep ++ (c :: rest).drop pat.length
    else c :: replaceFirstChars pat rep rest

/-- Replacement of the first occurrence of `pat` in `s` (JS `String.replace`
with a string pattern replaces only the first occurrence; an empty pattern
matches at the start). -/
def replaceFirst (s pat rep : String) : String :=
  if pat = "" then rep ++ s
  else String.mk (replaceFirstChars pat.toList rep.toList s.toList)

/-- Occurrence of `n` as a contiguous sublist of `h`. -/
def charsContain (h n : List Char) : Bool :=
  match h with
  | [] => n.isEmpty
  | _ :: t => n.isPrefixOf h || charsContain t n

/-- Substring test mirroring JS `String.includes`. -/
def strContains (h n : String) : Bool :=
  charsContain h.toList n.toList

/-- Character-wise lower-casing. -/
def lowerChars (l : List Char) : List Char :=
  l.map Char.toLower

/-- Case-insensitive substring test, mirroring SQL `ilike` with `%`-wrapped
pattern. -/
def strContainsCI (h n : String) : Bool :=
  charsContain (lowerChars h.toList) (lowerChars n.toList)

/-- JS `a || b` on an optional string `a` (empty string is falsy). -/
def jsFalsyOr (a b : Option String) : Option String :=
  match a with
  | some s => if s = "" then b else some s
  | none => b

/-- Truthiness of an optional string (JS `if (x)`): present and non-empty. -/
def truthy (t : Option String) : Bool :=
  match t with
  | some s => s ≠ ""
  | none => false

/-- JS `a || b` where `a` is an optional string and `b` a string. -/
def jsStrOr (a : Option String) (b : String) : String :=
  match a with
  | some s => if s = "" then b else s
  | none => b

/-- JS `Math.ceil(a / b)` on naturals (used with `b > 0`). -/
def natCeilDiv (a b : Nat) : Nat :=
  (a + b - 1) / b

/-! ## Authentication middleware (`src/middleware/auth.js`) -/

/-- Payload of a locally verified JWT (`verifySupabaseToken` success). -/
structure JwtUser where
  sub : String
  email : String
  full_name : Option String
  meta_name : Option String
  created_at : Option String
  email_confirmed_at : Option String
  deriving Repr, DecidableEq

/-- Identity attached to a request (`req.user`). -/
structure AuthUser where
  id : String
  email : String
  full_name : Option String
  meta_name : Option String
  created_at : Option String
  email_confirmed_at : Option String
  deriving Repr, DecidableEq

/-- User object built from a verified JWT payload in `authenticateUser`. -/
def userFromJwt (j : JwtUser) : AuthUser :=
  { id := j.sub, email := j.email, full_name := j.full_name,
    meta_name := j.meta_name, created_at := j.created_at,
    email_confirmed_at := j.email_confirmed_at }

/-- Row of the local `users` table, as inserted by `ensureUserExists`. -/
structure UserRow where
  id : String
  email : String
  name : String
  email_verified : Bool
  created_at : String
  deriving Repr, DecidableEq

/-- Local part of an email address: JS `email.split('@')[0]`. -/
def emailLocalPart (e : String) : String :=
  String.mk (e.toList.takeWhile (fun c => c ≠ '@'))

/-- Row derived from an identity by `ensureUserExists`: the name falls back
from `user_metadata.full_name` to `user_metadata.name` to the local part of
the email; `email_verified` is the truthiness of `email_confirmed_at`;
`created_at` falls back to the current time. -/
def newUserRow (u : AuthUser) (now : String) : UserRow :=
  { id := u.id, email := u.email,
    name := jsStrOr u.full_name (jsStrOr u.meta_name (emailLocalPart u.email)),
    email_verified := truthy u.email_confirmed_at,
    created_at := jsStrOr u.created_at now }

/-- Store insert into `users` with a unique-id constraint.  `ok = false`
injects an unrelated store failure.  Returns the new table and the store
error, if any. -/
def insertUserRow (db : List UserRow) (row : UserRow) (ok : Bool) :
    List UserRow × Option String :=
  if db.any (fun r => r.id == row.id) then
    (db, some "duplicate key value violates unique constraint")
  else if ok then (db ++ [row], none)
  else (db, some "insert failed")

/-- `ensureUserExists`: look up by id; on the `PGRST116` (no rows) signature
insert the derived row; any insert error is logged and swallowed; the
function itself never surfaces an error (outer try/catch). -/
def ensureUserExists (db : List UserRow) (u : AuthUser) (insertOk : Bool)
    (now : String) : List UserRow × Option String :=
  match db.find? (fun r => r.id == u.id) with
  | some _ => (db, none)
  | none =>
    let ins := insertUserRow db (newUserRow u now) insertOk
    (ins.fst, none)

/-- Inbound request: the `sb-access-token` cookie and the `Authorization`
header, each possibly absent. -/
structure Request where
  cookieToken : Option String
  authHeader : Option String
  deriving Repr, DecidableEq

/-- Bearer credential extraction:
`req.cookies['sb-access-token'] || req.headers.authorization?.replace('Bearer ', '')`. -/
def extractToken (req : Request) : Option String :=
  jsFalsyOr req.cookieToken (req.authHeader.map (fun h => replaceFirst h "Bearer " ""))

/-- Reply of the remote identity authority (`supabase.auth.getUser`):
`{ data: { user }, error }`. -/
structure AuthorityReply where
  user : Option AuthUser
  error : Option String
  deriving Repr, DecidableEq

/-- Outcome of the middleware: an early JSON error response, or control
passed to the handler with or without an identity attached. -/
inductive AuthOutcome where
  | reject (status : Nat) (message : String)
  | continueWith (user : AuthUser)
  | continueAnon
  deriving Repr, DecidableEq

/-- Result of running a middleware variant: the outcome, the number of
calls made to the remote identity authority, and the local user table
afterwards. -/
structure AuthOutput where
  outcome : AuthOutcome
  authorityCalls : Nat
  userDb : List UserRow
  deriving Repr, DecidableEq

/-- Mandatory middleware `authenticateUser`: extract the token (absent or
falsy token → 401 `Access token required`); try local JWT verification
first; on local failure fall back to one authority call; on both failing →
401 `Invalid or expired token`; on success run `ensureUserExists` and
attach the user. -/
def authenticateUser (req : Request) (verify : String → Option JwtUser)
    (authority : String → AuthorityReply) (db : List UserRow)
    (insertOk : Bool) (now : String) : AuthOutput :=
  let accessToken := extractToken req
  if truthy accessToken = false then
    { outcome := .reject 401 "Access token required", authorityCalls := 0, userDb := db }
  else
    let tok := accessToken.getD ""
    match verify tok with
    | some j =>
      let u := userFromJwt j
      let ens := ensureUserExists db u insertOk now
      { outcome := .continueWith u, authorityCalls := 0, userDb := ens.fst }
    | none =>
      let reply := authority tok
      match reply.error, reply.user with
      | none, some u =>
        let ens := ensureUserExists db u insertOk now
        { outcome := .continueWith u, authorityCalls := 1, userDb := ens.fst }
      | _, _ =>
        { outcome := .reject 401 "Invalid or expired token", authorityCalls := 1, userDb := db }

/-- Optional middleware `optionalAuth`: same verification chain, but a
missing or unverifiable token lets the request proceed anonymously. -/
def optionalAuth (req : Request) (verify : String → Option JwtUser)
    (authority : String → AuthorityReply) (db : List UserRow)
    (insertOk : Bool) (now : String) : AuthOutput :=
  let accessToken := extractToken req
  if truthy accessToken then
    let tok := accessToken.getD ""
    match verify tok with
    | some j =>
      let u := userFromJwt j
      let ens := ensureUserExists db u insertOk now
      { outcome := .continueWith u, authorityCalls := 0, userDb := ens.fst }
    | none =>
      let reply := authority tok
      match reply.error, reply.user with
      | none, some u =>
        let ens := ensureUserExists db u insertOk now
        { outcome := .continueWith u, authorityCalls := 1, userDb := ens.fst }
      | _, _ =>
        { outcome := .continueAnon, authorityCalls := 1, userDb := db }
  else
    { outcome := .continueAnon, authorityCalls := 0, userDb := db }

/-! ## Notes data model (tables `posts`, `categories`, `labels`, `post_labels`) -/

/-- Row of the `labels` table (columns used by the handlers). -/
structure Label where
  id : Nat
  name : String
  color : String
  deriving Repr, DecidableEq

/-- Row of the `categories` table (columns used by the handlers). -/
structure Category where
  id : Nat
  name : String
  color : String
  icon : String
  deriving Repr, DecidableEq

/-- Row of the `posts` table.  Timestamps are abstract instants (naturals). -/
structure Post where
  id : Nat
  user_id : String
  title : String
  content : Option String
  encrypted_content : Option String
  is_encrypted : Bool
  category_id : Option Nat
  is_draft : Bool
  is_public : Bool
  public_share_token : Option String
  is_updated : Bool
  created_at : Nat
  updated_at : Nat
  last_autosave : Nat
  deriving Repr, DecidableEq

/-- The relational store visible to the note endpoints. -/
structure Db where
  posts : List Post
  categories : List Category
  labels : List Label
  post_labels : List (Nat × Nat)
  deriving Repr, DecidableEq

/-- Embedded category of a post under the `category:categories(...)` join. -/
def joinCategory (db : Db) (p : Post) : Option Category :=
  p.category_id.bind (fun cid => db.categories.find? (fun c => c.id == cid))

/-- Labels of a post under the `post_labels(label:labels(...))` join,
flattened as the transforms do with `post.post_labels.map(pl => pl.label)`. -/
def joinLabels (db : Db) (p : Post) : List Label :=
  (db.post_labels.filter (fun pl => pl.fst == p.id)).filterMap
    (fun pl => db.labels.find? (fun l => l.id == pl.snd))

/-- API-facing note shape produced by the list/single/create/update
transforms: the post spread plus `labels`, `category`, `display_date` and
`date_type`, with `encrypted_content` possibly overridden. -/
structure ApiNote where
  id : Nat
  title : String
  content : Option String
  encrypted_content : Option String
  is_encrypted : Bool
  category : Option Category
  labels : List Label
  is_draft : Bool
  is_public : Bool
  is_updated : Bool
  created_at : Nat
  updated_at : Nat
  display_date : Nat
  date_type : String
  deriving Repr, DecidableEq

/-- Transform used by GET `/api/notes` on the normal joined path:
labels flattened, display date from the updated flag, and
`encrypted_content: undefined` (omitted from the list view). -/
def listTransform (db : Db) (p : Post) : ApiNote :=
  { id := p.id, title := p.title, content := p.content,
    encrypted_content := none,
    is_encrypted := p.is_encrypted,
    category := joinCategory db p,
    labels := joinLabels db p,
    is_draft := p.is_draft, is_public := p.is_public, is_updated := p.is_updated,
    created_at := p.created_at, updated_at := p.updated_at,
    display_date := if p.is_updated then p.updated_at else p.created_at,
    date_type := if p.is_updated then "updated" else "created" }

/-- Transform used by the relationship-degraded path of GET `/api/notes`:
`labels: []`, `category: null`, same display-date rule, and
`encrypted_content: undefined`. -/
def degradedTransform (p : Post) : ApiNote :=
  { id := p.id, title := p.title, content := p.content,
    encrypted_content := none,
    is_encrypted := p.is_encrypted,
    category := none,
    labels := [],
    is_draft := p.is_draft, is_public := p.is_public, is_updated := p.is_updated,
    created_at := p.created_at, updated_at := p.updated_at,
    display_date := if p.is_updated then p.updated_at else p.created_at,
    date_type := if p.is_updated then "updated" else "created" }

/-- Transform used by GET `/api/notes/:id` (select `*` plus joins): the
full row is spread, so `encrypted_content` is passed through verbatim. -/
def singleTransform (db : Db) (p : Post) : ApiNote :=
  { id := p.id, title := p.title, content := p.content,
    encrypted_content := p.encrypted_content,
    is_encrypted := p.is_encrypted,
    category := joinCategory db p,
    labels := joinLabels db p,
    is_draft := p.is_draft, is_public := p.is_public, is_updated := p.is_updated,
    created_at := p.created_at, updated_at := p.updated_at,
    display_date := if p.is_updated then p.updated_at else p.created_at,
    date_type := if p.is_updated then "updated" else "created" }

/-- GET `/api/notes/:id`: owner-scoped single fetch; `none` models the 404
`Note not found or access denied` response. -/
def getNoteById (db : Db) (uid : String) (id : Nat) : Option ApiNote :=
  match db.posts.find? (fun p => p.id == id && p.user_id == uid) with
  | none => none
  | some p => some (singleTransform db p)

/-- Record returned by the GET `/api/public/:token` query.  Its select list
is exactly `id, title, content, is_encrypted, created_at, updated_at,
category, post_labels`: the columns `is_updated` and `encrypted_content`
are NOT selected. -/
structure PublicRow where
  id : Nat
  title : String
  content : Option String
  is_encrypted : Bool
  created_at : Nat
  updated_at : Nat
  category : Option Category
  post_labels : List Label
  deriving Repr, DecidableEq

/-- Projection of a post row to the public select list. -/
def publicSelectRow (db : Db) (p : Post) : PublicRow :=
  { id := p.id, title := p.title, content := p.content,
    is_encrypted := p.is_encrypted,
    created_at := p.created_at, updated_at := p.updated_at,
    category := joinCategory db p,
    post_labels := joinLabels db p }

/-- Value of `data.is_updated` read by the public transform: the column is
not in the select list, so the property is `undefined`, which is falsy. -/
def PublicRow.isUpdatedJs (_ : PublicRow) : Bool := false

/-- Body of the GET `/api/public/:token` 200 response: the selected row
spread plus `labels`, `display_date`, `date_type`.  `encrypted_content` is
never selected, so the property is absent (modelled `none`). -/
structure PublicNote where
  id : Nat
  title : String
  content : Option String
  encrypted_content : Option String
  is_encrypted : Bool
  created_at : Nat
  updated_at : Nat
  category : Option Category
  labels : List Label
  display_date : Nat
  date_type : String
  deriving Repr, DecidableEq

/-- Transform of the public view, mirroring the handler's
`data.is_updated ? data.updated_at : data.created_at` on the selected row. -/
def publicTransform (r : PublicRow) : PublicNote :=
  { id := r.id, title := r.title, content := r.content,
    encrypted_content := none,
    is_encrypted := r.is_encrypted,
    created_at := r.created_at, updated_at := r.updated_at,
    category := r.category,
    labels := r.post_labels,
    display_date := if r.isUpdatedJs then r.updated_at else r.created_at,
    date_type := if r.isUpdatedJs then "updated" else "created" }

/-- GET `/api/public/:token`: fetch by share token with `is_public = true`;
`none` models the 404 `Public note not found` response. -/
def publicView (db : Db) (token : String) : Option PublicNote :=
  match db.posts.find? (fun p => p.public_share_token == some token && p.is_public) with
  | none => none
  | some p => some (publicTransform (publicSelectRow db p))

/-! ## GET `/api/notes`: query composition with degradation -/

/-- Query parameters of GET `/api/notes`.  `drafts` and `visibility` are the
raw query strings (compared against the literals `true`/`false` and
`public`/`private`); `category` and `labels` are the parsed ids, absent when
the parameter is missing or falsy; `search` is the raw string. -/
structure ListParams where
  category : Option Nat
  labels : Option (List Nat)
  search : Option String
  drafts : Option String
  visibility : Option String
  page : Nat
  limit : Nat
  deriving Repr, DecidableEq

/-- Pagination metadata of the list response. -/
structure Pagination where
  currentPage : Nat
  totalPages : Nat
  totalCount : Nat
  limit : Nat
  hasNextPage : Bool
  hasPrevPage : Bool
  deriving Repr, DecidableEq

/-- Response of GET `/api/notes`: 200 with data and pagination, or the
500 error passthrough of the catch-all. -/
inductive ListResponse where
  | ok (data : List ApiNote) (pagination : Pagination)
  | serverError (msg : String)
  deriving Repr, DecidableEq

/-- Data array of a 200 list response (empty for an error response). -/
def ListResponse.items : ListResponse → List ApiNote
  | .ok d _ => d
  | .serverError _ => []

/-- Supabase `range(a, b)` is inclusive on both ends: the rows at indices
`a` through `b`. -/
def rangeSlice (l : List α) (a b : Nat) : List α :=
  (l.drop a).take (b + 1 - a)

/-- Ordering `order('created_at', { ascending: false })`. -/
def sortByCreatedDesc (l : List Post) : List Post :=
  l.insertionSort (fun x y => y.created_at ≤ x.created_at)

/-- Draft/visibility/category/search filters of the joined strategy, applied
to the owner-scoped rows in the order the handler chains them. -/
def applyFilters (p : ListParams) (rows : List Post) : List Post :=
  let r1 := match p.drafts with
    | some s =>
      if s == "true" then rows.filter (fun q => q.is_draft)
      else if s == "false" then rows.filter (fun q => !q.is_draft)
      else rows
    | none => rows
  let r2 := match p.visibility with
    | some s =>
      if s == "public" then r1.filter (fun q => q.is_public)
      else if s == "private" then r1.filter (fun q => !q.is_public)
      else r1
    | none => r1
  let r3 := match p.category with
    | some c => r2.filter (fun q => q.category_id == some c)
    | none => r2
  match p.search with
  | some s =>
    if s == "" then r3
    else r3.filter (fun q =>
      strContainsCI q.title s ||
      (match q.content with
       | some c => strContainsCI c s
       | none => false))
  | none => r3

/-- Error signature of the existence probe short-circuit:
`checkError.message.includes('Could not find the table')`. -/
def tableAbsentSig (m : String) : Bool :=
  strContains m "Could not find the table"

/-- Error signature of the join fallback:
`error.message.includes('Could not find a relationship')`. -/
def relationshipSig (m : String) : Bool :=
  strContains m "Could not find a relationship"

/-- True when the probe succeeded and the joined query failed with the
relationship signature, i.e. the request is served by the degraded flat
query. -/
def isRelDegraded (probeError joinError : Option String) : Bool :=
  probeError.isNone &&
    (match joinError with
     | some m => relationshipSig m
     | none => false)

/-- GET `/api/notes`.  `probeError` is the error of the trivial existence
probe, `joinError` the error of the joined query, and `countFails` injects
a failure of the separate count query (logged, count falls back to the
in-page length via `count || filteredData.length`). -/
def getNotes (db : Db) (uid : String) (p : ListParams)
    (probeError joinError : Option String) (countFails : Bool) : ListResponse :=
  let pageNum := p.page
  let limitNum := p.limit
  let offset := (pageNum - 1) * limitNum
  match probeError with
  | some m =>
    if tableAbsentSig m then
      .ok [] { currentPage := 1, totalPages := 0, totalCount := 0,
               limit := limitNum, hasNextPage := false, hasPrevPage := false }
    else .serverError m
  | none =>
    let countVal : Option Nat :=
      if countFails then none
      else some ((db.posts.filter (fun q => q.user_id == uid)).length)
    match joinError with
    | some m =>
      if relationshipSig m then
        let simpleData := sortByCreatedDesc (db.posts.filter (fun q => q.user_id == uid))
        let simpleTransformed := simpleData.map degradedTransform
        let n := simpleTransformed.length
        .ok simpleTransformed
          { currentPage := pageNum, totalPages := natCeilDiv n limitNum,
            totalCount := n, limit := limitNum,
            hasNextPage := decide (pageNum < natCeilDiv n limitNum),
            hasPrevPage := decide (1 < pageNum) }
      else .serverError m
    | none =>
      let sorted := sortByCreatedDesc (applyFilters p (db.posts.filter (fun q => q.user_id == uid)))
      let pageRows := rangeSlice sorted offset (offset + limitNum - 1)
      let transformedData := pageRows.map (listTransform db)
      let filteredData := match p.labels with
        | some ids => transformedData.filter (fun a => a.labels.any (fun l => ids.contains l.id))
        | none => transformedData
      let totalCount := match countVal with
        | some c => if c == 0 then filteredData.length else c
        | none => filteredData.length
      let totalPages := natCeilDiv totalCount limitNum
      .ok filteredData
        { currentPage := pageNum, totalPages := totalPages, totalCount := totalCount,
          limit := limitNum,
          hasNextPage := decide (pageNum < totalPages),
          hasPrevPage := decide (1 < pageNum) }

/-! ## Mutating endpoints -/

/-- Owner-scoped update `update(f).eq('id', id).eq('user_id', uid).select()`:
returns the table after the update together with the updated rows (the
`select()` result the handlers test for emptiness). -/
def updateWhere (q : Post → Bool) (f : Post → Post) :
    List Post → List Post × List Post
  | [] => ([], [])
  | p :: ps =>
    let rest := updateWhere q f ps
    if q p then (f p :: rest.fst, f p :: rest.snd)
    else (p :: rest.fst, rest.snd)

/-- Body of POST `/api/notes`. -/
structure CreateBody where
  title : String
  content : Option String
  category_id : Option Nat
  label_ids : List Nat
  is_draft : Bool
  is_public : Bool
  is_encrypted : Bool
  encrypted_content : Option String
  deriving Repr, DecidableEq

/-- JS `category_id || null` (0 is falsy). -/
def jsCategoryOrNull (c : Option Nat) : Option Nat :=
  match c with
  | some v => if v == 0 then none else some v
  | none => none

/-- POST `/api/notes`: insert the post (nulling whichever of `content` /
`encrypted_content` the `is_encrypted` flag does not select, generating a
share token iff public), then insert the label associations.  Returns the
new store and the inserted row. -/
def createNote (db : Db) (uid : String) (b : CreateBody) (newId : Nat)
    (freshToken : String) (now : Nat) : Db × Post :=
  let post : Post :=
    { id := newId, user_id := uid, title := b.title,
      content := if b.is_encrypted then none else b.content,
      encrypted_content := if b.is_encrypted then b.encrypted_content else none,
      is_encrypted := b.is_encrypted,
      category_id := jsCategoryOrNull b.category_id,
      is_draft := b.is_draft, is_public := b.is_public,
      public_share_token := if b.is_public then some freshToken else none,
      is_updated := false,
      created_at := now, updated_at := now, last_autosave := now }
  ({ db with
      posts := db.posts ++ [post],
      post_labels := db.post_labels ++ b.label_ids.map (fun l => (newId, l)) },
   post)

/-- Body of PUT `/api/notes/:id`. -/
structure PutBody where
  title : String
  content : Option String
  category_id : Option Nat
  label_ids : Option (List Nat)
  deriving Repr, DecidableEq

/-- Per-row update of PUT `/api/notes/:id`: sets `title`, `content`,
`category_id`, `updated_at` and `is_updated`; it does not touch
`encrypted_content` or `is_encrypted`. -/
def putUpdate (b : PutBody) (now : Nat) (p : Post) : Post :=
  { p with title := b.title, content := b.content,
           category_id := jsCategoryOrNull b.category_id,
           updated_at := now, is_updated := true }

/-- PUT `/api/notes/:id`: owner-scoped update; empty `select()` result →
404 before any label mutation; otherwise replace the label associations
when `label_ids` is provided.  Returns the HTTP status and the new store. -/
def putNote (db : Db) (uid : String) (id : Nat) (b : PutBody) (now : Nat) :
    Nat × Db :=
  let upd := updateWhere (fun p => p.id == id && p.user_id == uid) (putUpdate b now) db.posts
  let db1 : Db := { db with posts := upd.fst }
  if upd.snd.isEmpty then (404, db1)
  else
    match b.label_ids with
    | none => (200, db1)
    | some ids =>
      (200, { db1 with
        post_labels :=
          db1.post_labels.filter (fun pl => pl.fst != id) ++ ids.map (fun l => (id, l)) })

/-- DELETE `/api/notes/:id`: owner-scoped delete; the handler never
inspects how many rows matched and always answers 200
`Note deleted successfully`. -/
def deleteNote (db : Db) (uid : String) (id : Nat) : Nat × Db :=
  (200, { db with posts := db.posts.filter (fun p => !(p.id == id && p.user_id == uid)) })

/-- PATCH `/api/notes/:id/visibility`: owner-scoped update setting
`is_public` and regenerating or clearing the share token; empty result →
404. -/
def patchVisibility (db : Db) (uid : String) (id : Nat) (isPublic : Bool)
    (freshToken : String) (now : Nat) : Nat × Db :=
  let upd := updateWhere (fun p => p.id == id && p.user_id == uid)
    (fun p => { p with is_public := isPublic,
                       public_share_token := if isPublic then some freshToken else none,
                       updated_at := now }) db.posts
  let db1 : Db := { db with posts := upd.fst }
  if upd.snd.isEmpty then (404, db1) else (200, db1)

/-- PATCH `/api/notes/:id/publish`: owner-scoped update additionally
restricted to `is_draft = true`; empty result → 404. -/
def patchPublish (db : Db) (uid : String) (id : Nat) (now : Nat) : Nat × Db :=
  let upd := updateWhere (fun p => p.id == id && p.user_id == uid && p.is_draft)
    (fun p => { p with is_draft := false, updated_at := now, is_updated := true }) db.posts
  let db1 : Db := { db with posts := upd.fst }
  if upd.snd.isEmpty then (404, db1) else (200, db1)

/-- Body of POST `/api/notes/:id/autosave`. -/
structure AutosaveBody where
  title : String
  content : Option String
  encrypted_content : Option String
  is_encrypted : Bool
  deriving Repr, DecidableEq

/-- Per-row update of the autosave endpoint: like create, it nulls
whichever content field the `is_encrypted` flag does not select. -/
def autosaveUpdate (b : AutosaveBody) (now : Nat) (p : Post) : Post :=
  { p with title := b.title,
           content := if b.is_encrypted then none else b.content,
           encrypted_content := if b.is_encrypted then b.encrypted_content else none,
           is_encrypted := b.is_encrypted,
           last_autosave := now, updated_at := now, is_updated := true }

/-- POST `/api/notes/:id/autosave`: owner-scoped update; empty result →
404. -/
def autosaveNote (db : Db) (uid : String) (id : Nat) (b : AutosaveBody) (now : Nat) :
    Nat × Db :=
  let upd := updateWhere (fun p => p.id == id && p.user_id == uid) (autosaveUpdate b now) db.posts
  let db1 : Db := { db with posts := upd.fst }
  if upd.snd.isEmpty then (404, db1) else (200, db1)

/-! ## Concurrency model for `ensureUserExists`

Each in-flight invocation is a two-step process: the lookup
(`select ... eq id ... single()`) followed, when the lookup reported the
`PGRST116` no-rows signature, by the insert (whose error, conflict
included, is logged and swallowed).  A schedule interleaves the steps of
two invocations for the same identity against the shared `users` table. -/

/-- Phase of one in-flight `ensureUserExists` invocation. -/
inductive ProvPhase where
  | lookup
  | insertRow (sawAbsent : Bool)
  | finished
  deriving Repr, DecidableEq

/-- One step of an invocation against the shared table.  The lookup
observes whether the row is currently absent; the insert runs only when
the lookup saw `PGRST116`, and its error (unique-id conflict) is
swallowed. -/
def provStep (u : AuthUser) (now : String) (db : List UserRow) :
    ProvPhase → ProvPhase × List UserRow
  | .lookup => (.insertRow (db.find? (fun r => r.id == u.id)).isNone, db)
  | .insertRow true =>
    let ins := insertUserRow db (newUserRow u now) true
    (.finished, ins.fst)
  | .insertRow false => (.finished, db)
  | .finished => (.finished, db)

/-- Run two invocations under a schedule: `true` steps the first process,
`false` the second. -/
def runSched (u : AuthUser) (now : String) :
    List Bool → ProvPhase → ProvPhase → List UserRow →
    ProvPhase × ProvPhase × List UserRow
  | [], p1, p2, db => (p1, p2, db)
  | true :: rest, p1, p2, db =>
    let s := provStep u now db p1
    runSched u now rest s.fst p2 s.snd
  | false :: rest, p1, p2, db =>
    let s := provStep u now db p2
    runSched u now rest p1 s.fst s.snd

/-- Number of rows with a given id in the `users` table. -/
def countId (db : List UserRow) (id : String) : Nat :=
  db.countP (fun r => r.id == id)

/-! ## Concrete fixtures used by witnesses and counterexamples -/

/-- Example JWT payload. -/
def exJwt : JwtUser :=
  { sub := "user-1", email := "alice@example.com", full_name := none,
    meta_name := none, created_at := none, email_confirmed_at := none }

/-- Example identity. -/
def exUser : AuthUser := userFromJwt exJwt

/-- Request carrying an `Authorization` header whose value after
`Bearer ` is empty. -/
def emptyBearerReq : Request := { cookieToken := none, authHeader := some "Bearer " }

/-- Request carrying a non-empty bearer cookie. -/
def cookieReq : Request := { cookieToken := some "tok1", authHeader := none }

/-- Verifier accepting every token as `exJwt`. -/
def verifyAll (_ : String) : Option JwtUser := some exJwt

/-- Verifier rejecting every token. -/
def verifyNone (_ : String) : Option JwtUser := none

/-- Authority resolving every token to `exUser` without error. -/
def authorityOk (_ : String) : AuthorityReply := { user := some exUser, error := none }

/-- Standard list parameters (`page = 1`, `limit = 12`, no filters). -/
def exParamsDefault : ListParams :=
  { category := none, labels := none, search := none, drafts := none,
    visibility := none, page := 1, limit := 12 }

/-- List parameters with `limit = 1`. -/
def exParamsLim1 : ListParams :=
  { category := none, labels := none, search := none, drafts := none,
    visibility := none, page := 1, limit := 1 }

/-- A relationship-unresolved error message. -/
def relMsg : String := "Could not find a relationship between posts and categories"

/-- A table-absent error message. -/
def tableMsg : String := "Could not find the table public.posts in the schema cache"

/-- A note owned by `alice`. -/
def notePostA : Post :=
  { id := 1, user_id := "alice", title := "t", content := some "c",
    encrypted_content := none, is_encrypted := false, category_id := none,
    is_draft := true, is_public := false, public_share_token := none,
    is_updated := false, created_at := 5, updated_at := 5, last_autosave := 5 }

/-- Store holding only `notePostA`. -/
def dbA : Db := { posts := [notePostA], categories := [], labels := [], post_labels := [] }

/-! ## C1 — empty-string bearer credential -/

/-- C1 counterexample: with an `Authorization: Bearer ` header whose
credential is the empty string, the extracted token is the (present but
empty) string, yet `authenticateUser` rejects immediately with 401
`Access token required` and makes zero authority calls — even against an
authority that would have resolved the token.  The claim said an
empty-string credential triggers the authority fallback. -/
theorem c1_counterexample :
    extractToken emptyBearerReq = some "" ∧
    authenticateUser emptyBearerReq verifyNone authorityOk [] true "t0" =
      { outcome := .reject 401 "Access token required", authorityCalls := 0, userDb := [] } := by
  constructor <;> rfl

/-- C1 (amended): whenever the extracted credential is absent OR the empty
string (both are falsy to the `if (!accessToken)` check), the mandatory
middleware responds 401 `Access token required` with zero authority calls,
and the optional middleware proceeds anonymously with zero authority
calls; no verification is attempted. -/
theorem c1_empty_token_rejected (req : Request) (verify : String → Option JwtUser)
    (authority : String → AuthorityReply) (db : List UserRow) (ok : Bool) (now : String)
    (h : truthy (extractToken req) = false) :
    authenticateUser req verify authority db ok now =
      { outcome := .reject 401 "Access token required", authorityCalls := 0, userDb := db } ∧
    optionalAuth req verify authority db ok now =
      { outcome := .continueAnon, authorityCalls := 0, userDb := db } := by
  constructor
  · simp [authenticateUser, h]
  · simp [optionalAuth, h]

/-- C1 witness: the amended statement at the empty-`Bearer` request. -/
theorem c1_witness :
    truthy (extractToken emptyBearerReq) = false ∧
    (authenticateUser emptyBearerReq verifyAll authorityOk [] true "t0" =
      { outcome := .reject 401 "Access token required", authorityCalls := 0, userDb := [] } ∧
    optionalAuth emptyBearerReq verifyAll authorityOk [] true "t0" =
      { outcome := .continueAnon, authorityCalls := 0, userDb := [] }) :=
  ⟨by decide, c1_empty_token_rejected emptyBearerReq verifyAll authorityOk [] true "t0" (by decide)⟩

/-! ## C2 — fast-path exclusivity and single-fallback determinism -/

/-- C2: for a presented (non-empty) credential, local verification success
attaches the derived identity with zero authority calls; local failure
makes exactly one authority call, and the request continues as
authenticated precisely when that call returns a user without error,
otherwise the response is 401 `Invalid or expired token`. -/
theorem c2_fast_path_and_single_fallback (req : Request)
    (verify : String → Option JwtUser) (authority : String → AuthorityReply)
    (db : List UserRow) (ok : Bool) (now : String) (tok : String)
    (htok : extractToken req = some tok) (hne : tok ≠ "") :
    (match verify tok with
     | some j =>
        authenticateUser req verify authority db ok now =
          { outcome := .continueWith (userFromJwt j), authorityCalls := 0,
            userDb := (ensureUserExists db (userFromJwt j) ok now).fst }
     | none =>
        (authenticateUser req verify authority db ok now).authorityCalls = 1 ∧
        (match (authority tok).error, (authority tok).user with
         | none, some u =>
            authenticateUser req verify authority db ok now =
              { outcome := .continueWith u, authorityCalls := 1,
                userDb := (ensureUserExists db u ok now).fst }
         | _, _ =>
            authenticateUser req verify authority db ok now =
              { outcome := .reject 401 "Invalid or expired token",
                authorityCalls := 1, userDb := db })) := by
  have ht : truthy (some tok) = true := by simpa [truthy] using hne
  cases hv : verify tok with
  | some j =>
    simp [authenticateUser, htok, ht, hv]
  | none =>
    cases he : (authority tok).error with
    | some m =>
      cases hu : (authority tok).user <;>
        simp [authenticateUser, htok, ht, hv, he, hu]
    | none =>
      cases hu : (authority tok).user <;>
        simp [authenticateUser, htok, ht, hv, he, hu]

/-- C2 witness: the fast path at a concrete cookie token, with the
verifier succeeding. -/
theorem c2_witness :
    extractToken cookieReq = some "tok1" ∧ "tok1" ≠ "" ∧
    authenticateUser cookieReq verifyAll authorityOk [] true "t0" =
      { outcome := .continueWith (userFromJwt exJwt), authorityCalls := 0,
        userDb := (ensureUserExists [] (userFromJwt exJwt) true "t0").fst } :=
  ⟨rfl, by decide,
    c2_fast_path_and_single_fallback cookieReq verifyAll authorityOk [] true "t0" "tok1"
      rfl (by decide)⟩

/-! ## C7 — `encrypted_content` exposure per view -/

/-- A public encrypted note. -/
def encPubPost : Post :=
  { id := 4, user_id := "u", title := "s", content := none,
    encrypted_content := some "SECRET", is_encrypted := true, category_id := none,
    is_draft := false, is_public := true, public_share_token := some "pubTok",
    is_updated := false, created_at := 1, updated_at := 1, last_autosave := 1 }

/-- Store holding only `encPubPost`. -/
def dbEncPub : Db := { posts := [encPubPost], categories := [], labels := [], post_labels := [] }

/-- C7 counterexample: a public note with `encrypted_content` present is
served by GET `/api/public/:token` WITHOUT its `encrypted_content` (the
column is not in the select list), contradicting the claim that the public
view includes it verbatim whenever present. -/
theorem c7_counterexample :
    encPubPost.encrypted_content = some "SECRET" ∧
    (publicView dbEncPub "pubTok").map (fun a => a.encrypted_content) = some none ∧
    (publicView dbEncPub "pubTok").map (fun a => a.encrypted_content) ≠ some (some "SECRET") := by
  refine ⟨rfl, rfl, ?_⟩
  decide

/-- C7 (amended): list views (normal and degraded transform alike) always
omit `encrypted_content`; the single-note view passes it through verbatim;
the public view also always omits it, because its select list never fetches
the column. -/
theorem c7_encrypted_content_visibility (db : Db) (p : Post) :
    (listTransform db p).encrypted_content = none ∧
    (degradedTransform p).encrypted_content = none ∧
    (singleTransform db p).encrypted_content = p.encrypted_content ∧
    (publicTransform (publicSelectRow db p)).encrypted_content = none :=
  ⟨rfl, rfl, rfl, rfl⟩

/-! ## C8 — table-absent degrade-to-empty -/

/-- C8: when the existence probe fails with the table-absent signature,
GET `/api/notes` answers 200 with an empty data array and the fixed
pagination object; the condition is not surfaced as an error. -/
theorem c8_table_absent_empty_page (db : Db) (uid : String) (p : ListParams)
    (m : String) (je : Option String) (cf : Bool)
    (h : tableAbsentSig m = true) :
    getNotes db uid p (some m) je cf =
      .ok [] { currentPage := 1, totalPages := 0, totalCount := 0,
               limit := p.limit, hasNextPage := false, hasPrevPage := false } := by
  simp [getNotes, h]

/-- C8 witness: the table-absent message at a concrete store and request. -/
theorem c8_witness :
    tableAbsentSig tableMsg = true ∧
    getNotes dbA "u" exParamsDefault (some tableMsg) none false =
      .ok [] { currentPage := 1, totalPages := 0, totalCount := 0,
               limit := exParamsDefault.limit, hasNextPage := false, hasPrevPage := false } :=
  ⟨by decide, c8_table_absent_empty_page dbA "u" exParamsDefault tableMsg none false (by decide)⟩

/-! ## Helper lemmas on `updateWhere` -/

/-- An owner-scoped update that matches no row leaves the table unchanged
and selects no rows. -/
theorem updateWhere_nomatch {q : Post → Bool} {f : Post → Post} {l : List Post}
    (h : ∀ p ∈ l, q p = false) : updateWhere q f l = (l, []) := by
  induction l with
  | nil => rfl
  | cons p ps ih =>
    have hp : q p = false := h p (by simp)
    have hrest := ih (fun x hx => h x (by simp [hx]))
    simp [updateWhere, hp, hrest]

/-- A row-wise invariant holds on the updated table when it held before and
the update function re-establishes it. -/
theorem updateWhere_fst_all {q : Post → Bool} {f : Post → Post} {l : List Post}
    (pr : Post → Bool) (h : l.all pr = true) (hf : ∀ p, pr (f p) = true) :
    ((updateWhere q f l).fst.all pr) = true := by
  induction l with
  | nil => rfl
  | cons p ps ih =>
    rw [List.all_cons, Bool.and_eq_true] at h
    have hrest := ih h.right
    by_cases hq : q p = true
    · simp [updateWhere, hq, hf p, hrest]
    · simp at hq
      simp [updateWhere, hq, h.left, hrest]

/-! ## C3 — mutating another user's note -/

/-- A body for PUT requests used in fixtures. -/
def exPutBody : PutBody :=
  { title := "t2", content := some "c2", category_id := none, label_ids := none }

/-- A body for autosave requests used in fixtures. -/
def exAutoBody : AutosaveBody :=
  { title := "t3", content := some "c3", encrypted_content := none, is_encrypted := false }

/-- C3 counterexample: `notePostA` (id 1) exists and is owned by `alice`,
yet DELETE `/api/notes/1` issued by `bob` answers 200
`Note deleted successfully`, not the 404 the claim asserts for every
mutating endpoint (the row is still unchanged). -/
theorem c3_counterexample :
    notePostA ∈ dbA.posts ∧ notePostA.id = 1 ∧ notePostA.user_id ≠ "bob" ∧
    deleteNote dbA "bob" 1 = (200, dbA) ∧ (deleteNote dbA "bob" 1).fst ≠ 404 := by
  refine ⟨by decide, rfl, by decide, ?_, by decide⟩
  decide

/-- C3 (amended): against a note id whose row (if any) is owned by a
different user, PUT, PATCH visibility, PATCH publish and POST autosave
answer 404 and leave the store unchanged; DELETE also leaves the store
unchanged but answers 200 `Note deleted successfully` — its handler never
reports 404. -/
theorem c3_other_owner_mutations (db : Db) (uid : String) (id : Nat)
    (bp : PutBody) (ba : AutosaveBody) (isPublic : Bool) (tk : String) (now : Nat)
    (h : db.posts.all (fun p => !(p.id == id) || !(p.user_id == uid)) = true) :
    putNote db uid id bp now = (404, db) ∧
    patchVisibility db uid id isPublic tk now = (404, db) ∧
    patchPublish db uid id now = (404, db) ∧
    autosaveNote db uid id ba now = (404, db) ∧
    deleteNote db uid id = (200, db) := by
  have hq : ∀ p ∈ db.posts, (p.id == id && p.user_id == uid) = false := by
    intro p hp
    have := List.all_eq_true.mp h p hp
    cases hid : (p.id == id) <;> cases hu : (p.user_id == uid) <;> simp_all
  have hq2 : ∀ p ∈ db.posts, (p.id == id && p.user_id == uid && p.is_draft) = false := by
    intro p hp
    have := hq p hp
    cases hid : (p.id == id) <;> cases hu : (p.user_id == uid) <;> simp_all
  refine ⟨?_, ?_, ?_, ?_, ?_⟩
  · simp [putNote, updateWhere_nomatch hq]
  · simp [patchVisibility, updateWhere_nomatch hq]
  · simp [patchPublish, updateWhere_nomatch hq2]
  · simp [autosaveNote, updateWhere_nomatch hq]
  · have hfil : db.posts.filter (fun p => !(p.id == id && p.user_id == uid)) = db.posts :=
      List.filter_eq_self.mpr (by intro p hp; simp [hq p hp])
    unfold deleteNote
    rw [hfil]

/-- C3 witness: the amended statement for `bob` mutating `alice`'s note. -/
theorem c3_witness :
    dbA.posts.all (fun p => !(p.id == 1) || !(p.user_id == "bob")) = true ∧
    (putNote dbA "bob" 1 exPutBody 9 = (404, dbA) ∧
     patchVisibility dbA "bob" 1 true "tk" 9 = (404, dbA) ∧
     patchPublish dbA "bob" 1 9 = (404, dbA) ∧
     autosaveNote dbA "bob" 1 exAutoBody 9 = (404, dbA) ∧
     deleteNote dbA "bob" 1 = (200, dbA)) :=
  ⟨by decide,
   c3_other_owner_mutations dbA "bob" 1 exPutBody exAutoBody true "tk" 9 (by decide)⟩

/-! ## C4 — content / encrypted_content exclusivity -/

/-- At most one of `content` / `encrypted_content` is populated. -/
def contentExclusive (p : Post) : Bool :=
  p.content.isNone || p.encrypted_content.isNone

/-- An encrypted note owned by `alice`. -/
def encPost : Post :=
  { id := 2, user_id := "alice", title := "e", content := none,
    encrypted_content := some "CIPHER", is_encrypted := true, category_id := none,
    is_draft := false, is_public := false, public_share_token := none,
    is_updated := false, created_at := 1, updated_at := 1, last_autosave := 1 }

/-- Store holding only `encPost`. -/
def dbEnc : Db := { posts := [encPost], categories := [], labels := [], post_labels := [] }

/-- PUT body carrying plaintext content. -/
def exPutPlain : PutBody :=
  { title := "e", content := some "plain", category_id := none, label_ids := none }

/-- C4 counterexample: updating the previously encrypted note `encPost`
via PUT succeeds (200) and leaves a row with BOTH `content` and
`encrypted_content` populated — the exclusivity invariant the claim
asserts for every write path fails on the full-update path. -/
theorem c4_counterexample :
    dbEnc.posts.all contentExclusive = true ∧
    (putNote dbEnc "alice" 2 exPutPlain 7).fst = 200 ∧
    ((putNote dbEnc "alice" 2 exPutPlain 7).snd.posts.any
      (fun p => p.content.isSome && p.encrypted_content.isSome)) = true := by
  refine ⟨by decide, rfl, ?_⟩
  decide

/-- C4 (amended): create and autosave null whichever of `content` /
`encrypted_content` the `is_encrypted` flag does not select, so they
preserve the at-most-one-populated invariant store-wide; the PUT update
however sets `content` from the body and leaves `encrypted_content` and
`is_encrypted` untouched, so a full update of a previously encrypted note
leaves both fields populated. -/
theorem c4_write_paths (db : Db) (uid : String) (bc : CreateBody) (nid : Nat)
    (tk : String) (nowc : Nat) (ida : Nat) (ba : AutosaveBody) (nowa : Nat)
    (bp : PutBody) (nowp : Nat) (p : Post)
    (h : db.posts.all contentExclusive = true) :
    ((createNote db uid bc nid tk nowc).fst.posts.all contentExclusive) = true ∧
    ((autosaveNote db uid ida ba nowa).snd.posts.all contentExclusive) = true ∧
    (putUpdate bp nowp p).content = bp.content ∧
    (putUpdate bp nowp p).encrypted_content = p.encrypted_content ∧
    (putUpdate bp nowp p).is_encrypted = p.is_encrypted := by
  refine ⟨?_, ?_, rfl, rfl, rfl⟩
  · simp only [createNote, List.all_append, Bool.and_eq_true]
    refine ⟨h, ?_⟩
    cases he : bc.is_encrypted <;> simp [contentExclusive, he]
  · have hall := updateWhere_fst_all (q := fun p => p.id == ida && p.user_id == uid)
      (f := autosaveUpdate ba nowa) contentExclusive h
      (by intro r; cases he : ba.is_encrypted <;> simp [contentExclusive, autosaveUpdate, he])
    unfold autosaveNote
    by_cases hempty :
        (updateWhere (fun p => p.id == ida && p.user_id == uid) (autosaveUpdate ba nowa) db.posts).snd.isEmpty
    · simp [hempty, hall]
    · simp [hempty, hall]

/-- A plaintext create body used in fixtures. -/
def exCreatePlain : CreateBody :=
  { title := "n", content := some "x", category_id := none, label_ids := [],
    is_draft := false, is_public := false, is_encrypted := false, encrypted_content := none }

/-- C4 witness: the amended statement at concrete stores and bodies. -/
theorem c4_witness :
    dbEnc.posts.all contentExclusive = true ∧
    (((createNote dbEnc "alice" exCreatePlain 9 "tk" 3).fst.posts.all contentExclusive) = true ∧
     ((autosaveNote dbEnc "alice" 2 exAutoBody 3).snd.posts.all contentExclusive) = true ∧
     (putUpdate exPutPlain 7 encPost).content = exPutPlain.content ∧
     (putUpdate exPutPlain 7 encPost).encrypted_content = encPost.encrypted_content ∧
     (putUpdate exPutPlain 7 encPost).is_encrypted = encPost.is_encrypted) :=
  ⟨by decide,
   c4_write_paths dbEnc "alice" exCreatePlain 9 "tk" 3 2 exAutoBody 3 exPutPlain 7 encPost
     (by decide)⟩

/-! ## C5 — pagination invariants -/

/-- First note owned by `u`. -/
def postU1 : Post :=
  { id := 11, user_id := "u", title := "one", content := some "alpha",
    encrypted_content := none, is_encrypted := false, category_id := none,
    is_draft := false, is_public := false, public_share_token := none,
    is_updated := false, created_at := 1, updated_at := 1, last_autosave := 1 }

/-- Second note owned by `u`. -/
def postU2 : Post :=
  { id := 12, user_id := "u", title := "two", content := some "beta",
    encrypted_content := none, is_encrypted := false, category_id := none,
    is_draft := false, is_public := false, public_share_token := none,
    is_updated := false, created_at := 2, updated_at := 2, last_autosave := 2 }

/-- Store holding the two notes of `u`. -/
def dbTwo : Db := { posts := [postU1, postU2], categories := [], labels := [], post_labels := [] }

/-- Length bound of the inclusive supabase range. -/
theorem rangeSlice_length_le (l : List α) (off lim : Nat) (h : 0 < lim) :
    (rangeSlice l off (off + lim - 1)).length ≤ lim := by
  unfold rangeSlice
  rw [List.length_take]
  have he : off + lim - 1 + 1 - off = lim := by omega
  rw [he]
  exact min_le_left _ _

/-- C5 counterexample: with `limit = 1` and two notes owned by `u`, the
relationship-degraded path of GET `/api/notes` returns 2 items — the
claimed bound `item count ≤ limit` fails on that path. -/
theorem c5_counterexample :
    0 < exParamsLim1.limit ∧
    ¬ ((getNotes dbTwo "u" exParamsLim1 none (some relMsg) false).items.length ≤
        exParamsLim1.limit) := by
  constructor
  · decide
  · decide

/-- C5 (amended): for `limit > 0`, every 200 response of GET `/api/notes`
satisfies `hasNextPage = (currentPage < totalPages)` and
`hasPrevPage = (currentPage > 1)` with respect to the response's own
`currentPage`; the item count is at most `limit` on the normal joined path
and the table-absent path, but the relationship-degraded path returns the
owner's entire note list, which can exceed `limit`. -/
theorem c5_pagination (db : Db) (uid : String) (p : ListParams)
    (pe je : Option String) (cf : Bool) (data : List ApiNote) (pag : Pagination)
    (hl : 0 < p.limit)
    (hr : getNotes db uid p pe je cf = .ok data pag) :
    pag.hasNextPage = decide (pag.currentPage < pag.totalPages) ∧
    pag.hasPrevPage = decide (1 < pag.currentPage) ∧
    (isRelDegraded pe je = false → data.length ≤ p.limit) := by
  cases pe with
  | some m =>
    simp only [getNotes] at hr
    by_cases hsig : tableAbsentSig m = true
    · rw [if_pos hsig] at hr
      injection hr with h1 h2
      subst h1
      subst h2
      refine ⟨by simp, by simp, ?_⟩
      intro _
      simp
    · rw [if_neg hsig] at hr
      simp at hr
  | none =>
    cases je with
    | some m =>
      simp only [getNotes] at hr
      by_cases hsig : relationshipSig m = true
      · rw [if_pos hsig] at hr
        injection hr with h1 h2
        subst h1
        subst h2
        refine ⟨rfl, rfl, ?_⟩
        intro hdeg
        exfalso
        simp [isRelDegraded, hsig] at hdeg
      · rw [if_neg hsig] at hr
        simp at hr
    | none =>
      simp only [getNotes] at hr
      injection hr with h1 h2
      subst h1
      subst h2
      refine ⟨rfl, rfl, ?_⟩
      intro _
      have hpage : (rangeSlice
          (sortByCreatedDesc (applyFilters p (db.posts.filter (fun q => q.user_id == uid))))
          ((p.page - 1) * p.limit) ((p.page - 1) * p.limit + p.limit - 1)).length ≤ p.limit :=
        rangeSlice_length_le _ _ _ hl
      cases hlab : p.labels with
      | some ids =>
        simp only [hlab]
        calc (List.filter _ _).length
            ≤ (List.map (listTransform db) _).length := List.length_filter_le _ _
          _ ≤ p.limit := by rw [List.length_map]; exact hpage
      | none =>
        simp only [hlab]
        rw [List.length_map]
        exact hpage

/-- C5 witness: the amended statement on the normal joined path at a
concrete store. -/
theorem c5_witness :
    0 < exParamsLim1.limit ∧
    ((getNotes dbTwo "u" exParamsLim1 none none false =
        .ok [listTransform dbTwo postU2]
          { currentPage := 1, totalPages := 2, totalCount := 2, limit := 1,
            hasNextPage := true, hasPrevPage := false }) ∧
     ({ currentPage := 1, totalPages := 2, totalCount := 2, limit := 1,
        hasNextPage := true, hasPrevPage := false : Pagination }.hasNextPage =
          decide ((1 : Nat) < 2) ∧
      { currentPage := 1, totalPages := 2, totalCount := 2, limit := 1,
        hasNextPage := true, hasPrevPage := false : Pagination }.hasPrevPage =
          decide ((1 : Nat) < 1) ∧
      (isRelDegraded none none = false →
        [listTransform dbTwo postU2].length ≤ exParamsLim1.limit))) := by
  have hr : getNotes dbTwo "u" exParamsLim1 none none false =
      .ok [listTransform dbTwo postU2]
        { currentPage := 1, totalPages := 2, totalCount := 2, limit := 1,
          hasNextPage := true, hasPrevPage := false } := by decide
  exact ⟨by decide, hr,
    c5_pagination dbTwo "u" exParamsLim1 none none false _ _ (by decide) hr⟩

/-! ## C6 — display-date rule across the three views -/

/-- A public, already-updated note owned by `u`. -/
def updPost : Post :=
  { id := 3, user_id := "u", title := "n", content := some "c",
    encrypted_content := none, is_encrypted := false, category_id := none,
    is_draft := false, is_public := true, public_share_token := some "shareTok",
    is_updated := true, created_at := 10, updated_at := 20, last_autosave := 20 }

/-- Store holding only `updPost`. -/
def dbUpd : Db := { posts := [updPost], categories := [], labels := [], post_labels := [] }

/-- C6: on the updated note `updPost` (`is_updated = true`,
`created_at = 10`, `updated_at = 20`), the list view and the single-note
view render `display_date = 20` / `date_type = "updated"` as the claim
says, but the public share view renders `display_date = 10` /
`date_type = "created"`: its select list omits the `is_updated` column, so
the transform's `data.is_updated` is `undefined` and the else-branch is
always taken. -/
theorem c6_public_view_divergence :
    updPost.is_updated = true ∧
    (getNotes dbUpd "u" exParamsDefault none none false).items.map
      (fun a => (a.display_date, a.date_type)) = [(20, "updated")] ∧
    (getNoteById dbUpd "u" 3).map (fun a => (a.display_date, a.date_type)) =
      some (20, "updated") ∧
    (publicView dbUpd "shareTok").map (fun a => (a.display_date, a.date_type)) =
      some (10, "created") := by
  refine ⟨rfl, ?_, by decide, by decide⟩
  decide

/-! ## C10 — relationship-degraded flat query -/

/-- C10: when the joined query fails with the relationship signature, the
fallback applies only the ownership filter and creation-time-descending
order: the returned page is the owner's entire note list (every filter and
the page range dropped), each record carrying `labels = []` and
`category = null`, and the result does not depend on the request's filter,
page or limit parameters. -/
theorem c10_degraded_flat_query (db : Db) (uid : String) (p p2 : ListParams)
    (m : String) (cf cf2 : Bool) (q : Post)
    (h : relationshipSig m = true) :
    (getNotes db uid p none (some m) cf).items =
      (sortByCreatedDesc (db.posts.filter (fun r => r.user_id == uid))).map degradedTransform ∧
    (getNotes db uid p none (some m) cf).items.length =
      (db.posts.filter (fun r => r.user_id == uid)).length ∧
    ((getNotes db uid p none (some m) cf).items.all
      (fun x => x.labels.isEmpty && x.category.isNone)) = true ∧
    (q ∈ db.posts → q.user_id = uid →
      degradedTransform q ∈ (getNotes db uid p none (some m) cf).items) ∧
    (getNotes db uid p2 none (some m) cf2).items =
      (getNotes db uid p none (some m) cf).items := by
  have hitems : ∀ (pp : ListParams) (c : Bool),
      (getNotes db uid pp none (some m) c).items =
        (sortByCreatedDesc (db.posts.filter (fun r => r.user_id == uid))).map degradedTransform := by
    intro pp c
    simp [getNotes, h, ListResponse.items]
  refine ⟨hitems p cf, ?_, ?_, ?_, ?_⟩
  · rw [hitems, List.length_map]
    unfold sortByCreatedDesc
    rw [List.length_insertionSort]
  · rw [hitems, List.all_eq_true]
    intro x hx
    rw [List.mem_map] at hx
    obtain ⟨a, _, rfl⟩ := hx
    rfl
  · intro hq hqu
    rw [hitems]
    have hmem : q ∈ db.posts.filter (fun r => r.user_id == uid) :=
      List.mem_filter.mpr ⟨hq, by simp [hqu]⟩
    have hsorted : q ∈ sortByCreatedDesc (db.posts.filter (fun r => r.user_id == uid)) := by
      unfold sortByCreatedDesc
      rw [List.mem_insertionSort]
      exact hmem
    exact List.mem_map_of_mem _ hsorted
  · rw [hitems, hitems]

/-- C10 witness: the degraded path at a concrete store, request and note. -/
theorem c10_witness :
    relationshipSig relMsg = true ∧
    ((getNotes dbTwo "u" exParamsLim1 none (some relMsg) false).items =
      (sortByCreatedDesc (dbTwo.posts.filter (fun r => r.user_id == "u"))).map degradedTransform ∧
    (getNotes dbTwo "u" exParamsLim1 none (some relMsg) false).items.length =
      (dbTwo.posts.filter (fun r => r.user_id == "u")).length ∧
    ((getNotes dbTwo "u" exParamsLim1 none (some relMsg) false).items.all
      (fun x => x.labels.isEmpty && x.category.isNone)) = true ∧
    (postU1 ∈ dbTwo.posts → postU1.user_id = "u" →
      degradedTransform postU1 ∈ (getNotes dbTwo "u" exParamsLim1 none (some relMsg) false).items) ∧
    (getNotes dbTwo "u" exParamsDefault none (some relMsg) true).items =
      (getNotes dbTwo "u" exParamsLim1 none (some relMsg) false).items) :=
  ⟨by decide,
   c10_degraded_flat_query dbTwo "u" exParamsLim1 exParamsDefault relMsg false true postU1
     (by decide)⟩

/-! ## C9 — idempotent provisioning, sequential and concurrent -/

/-- Phases in which the invocation may still insert the row. -/
def pendingPhase : ProvPhase → Bool
  | .lookup => true
  | .insertRow true => true
  | _ => false

/-- No surfaced error: `ensureUserExists` always returns `none` (the
lookup error other than `PGRST116` and any insert error are logged and
swallowed). -/
theorem ensureUserExists_snd_none (db : List UserRow) (u : AuthUser) (ok : Bool)
    (now : String) : (ensureUserExists db u ok now).snd = none := by
  unfold ensureUserExists
  cases db.find? (fun r => r.id == u.id) <;> simp

/-- A successful-or-conflicting insert against a table holding at most one
row with the id leaves exactly one row with the id. -/
theorem insertUserRow_count_one (u : AuthUser) (now : String) (db : List UserRow)
    (hc : countId db u.id ≤ 1) :
    countId (insertUserRow db (newUserRow u now) true).fst u.id = 1 := by
  have hid : (newUserRow u now).id = u.id := rfl
  by_cases hany : db.any (fun r => r.id == u.id) = true
  · have hres : (insertUserRow db (newUserRow u now) true).fst = db := by
      unfold insertUserRow
      rw [hid, if_pos hany]
    rw [hres]
    obtain ⟨r, hr, hpr⟩ := List.any_eq_true.mp hany
    have hpos : 0 < countId db u.id := List.countP_pos_iff.mpr ⟨r, hr, hpr⟩
    omega
  · have hres : (insertUserRow db (newUserRow u now) true).fst = db ++ [newUserRow u now] := by
      unfold insertUserRow
      rw [hid, if_neg hany, if_pos rfl]
    rw [hres]
    have hzero : countId db u.id = 0 := by
      rw [countId, List.countP_eq_zero]
      intro a ha
      by_contra hcontra
      exact hany (List.any_eq_true.mpr ⟨a, ha, by revert hcontra; cases (a.id == u.id) <;> simp⟩)
    simp only [countId, List.countP_append] at hzero ⊢
    rw [hzero]
    simp [List.countP_cons, hid]

/-- One call of `ensureUserExists` against a table holding at most one row
with the id leaves exactly one row with the id. -/
theorem ensureUserExists_count_one (db : List UserRow) (u : AuthUser) (now : String)
    (hc : countId db u.id ≤ 1) :
    countId (ensureUserExists db u true now).fst u.id = 1 := by
  unfold ensureUserExists
  cases hf : db.find? (fun r => r.id == u.id) with
  | some r =>
    have hm := List.mem_of_find?_eq_some hf
    have hp := List.find?_some hf
    have hpos : 0 < countId db u.id := List.countP_pos_iff.mpr ⟨r, hm, hp⟩
    show countId db u.id = 1
    omega
  | none =>
    exact insertUserRow_count_one u now db hc

/-- Invariant of the two-invocation race: the table never holds more than
one row with the id, and while it holds none, at least one invocation is
still pending an insert.  Preserved by every schedule. -/
theorem runSched_invariant (u : AuthUser) (now : String) (sched : List Bool) :
    ∀ (p1 p2 : ProvPhase) (db : List UserRow),
    countId db u.id ≤ 1 →
    (countId db u.id = 0 → pendingPhase p1 = true ∨ pendingPhase p2 = true) →
    countId (runSched u now sched p1 p2 db).snd.snd u.id ≤ 1 ∧
    (countId (runSched u now sched p1 p2 db).snd.snd u.id = 0 →
      pendingPhase (runSched u now sched p1 p2 db).fst = true ∨
      pendingPhase (runSched u now sched p1 p2 db).snd.fst = true) := by
  induction sched with
  | nil =>
    intro p1 p2 db hc hp
    exact ⟨hc, hp⟩
  | cons b rest ih =>
    intro p1 p2 db hc hp
    cases b with
    | true =>
      simp only [runSched]
      cases p1 with
      | lookup =>
        apply ih
        · exact hc
        · intro h0
          left
          have hnone : db.find? (fun r => r.id == u.id) = none := by
            rw [List.find?_eq_none]
            intro a ha
            have := (List.countP_eq_zero.mp h0) a ha
            revert this
            cases (a.id == u.id) <;> simp
          simp [provStep, hnone, pendingPhase]
      | insertRow saw =>
        cases saw with
        | true =>
          have hone := insertUserRow_count_one u now db hc
          apply ih
          · simp only [provStep]
            omega
          · intro h0
            exfalso
            simp only [provStep] at h0
            omega
        | false =>
          apply ih
          · exact hc
          · intro h0
            rcases hp h0 with h | h
            · exact absurd h (by simp [pendingPhase])
            · exact Or.inr h
      | finished =>
        apply ih
        · exact hc
        · intro h0
          rcases hp h0 with h | h
          · exact absurd h (by simp [pendingPhase])
          · exact Or.inr h
    | false =>
      simp only [runSched]
      cases p2 with
      | lookup =>
        apply ih
        · exact hc
        · intro h0
          right
          have hnone : db.find? (fun r => r.id == u.id) = none := by
            rw [List.find?_eq_none]
            intro a ha
            have := (List.countP_eq_zero.mp h0) a ha
            revert this
            cases (a.id == u.id) <;> simp
          simp [provStep, hnone, pendingPhase]
      | insertRow saw =>
        cases saw with
        | true =>
          have hone := insertUserRow_count_one u now db hc
          apply ih
          · simp only [provStep]
            omega
          · intro h0
            exfalso
            simp only [provStep] at h0
            omega
        | false =>
          apply ih
          · exact hc
          · intro h0
            rcases hp h0 with h | h
            · exact Or.inl h
            · exact absurd h (by simp [pendingPhase])
      | finished =>
        apply ih
        · exact hc
        · intro h0
          rcases hp h0 with h | h
          · exact Or.inl h
          · exact absurd h (by simp [pendingPhase])

/-- C9: provisioning is idempotent and race-safe.  Under any interleaving
of two `ensureUserExists` invocations for the same identity that runs both
to completion, the `users` table ends with exactly one row with that id;
each sequential call surfaces no error and two sequential calls also leave
exactly one row; an insert that hits the unique-id conflict still
completes its invocation and leaves the table unchanged; and the mandatory
middleware's outcome is independent of the user table and of whether the
provisioning insert succeeds. -/
theorem c9_ensure_idempotent (u : AuthUser) (now : String) (db dbx : List UserRow)
    (sched : List Bool) (req : Request) (verify : String → Option JwtUser)
    (authority : String → AuthorityReply) (dba dbb : List UserRow)
    (oka okb : Bool) (nowa nowb : String)
    (hc : countId db u.id ≤ 1)
    (hdone1 : (runSched u now sched .lookup .lookup db).fst = .finished)
    (hdone2 : (runSched u now sched .lookup .lookup db).snd.fst = .finished) :
    countId (runSched u now sched .lookup .lookup db).snd.snd u.id = 1 ∧
    (ensureUserExists db u true now).snd = none ∧
    (ensureUserExists (ensureUserExists db u true now).fst u true now).snd = none ∧
    countId (ensureUserExists (ensureUserExists db u true now).fst u true now).fst u.id = 1 ∧
    (provStep u now dbx (.insertRow true)).fst = .finished ∧
    (dbx.any (fun r => r.id == u.id) = true →
      (provStep u now dbx (.insertRow true)).snd = dbx) ∧
    (authenticateUser req verify authority dba oka nowa).outcome =
      (authenticateUser req verify authority dbb okb nowb).outcome := by
  obtain ⟨hle, hpend⟩ := runSched_invariant u now sched .lookup .lookup db hc
    (fun _ => Or.inl rfl)
  refine ⟨?_, ensureUserExists_snd_none db u true now,
    ensureUserExists_snd_none _ u true now, ?_, rfl, ?_, ?_⟩
  · by_cases h0 : countId (runSched u now sched .lookup .lookup db).snd.snd u.id = 0
    · rcases hpend h0 with h | h
      · rw [hdone1] at h
        exact absurd h (by simp [pendingPhase])
      · rw [hdone2] at h
        exact absurd h (by simp [pendingPhase])
    · omega
  · have h1 := ensureUserExists_count_one db u now hc
    exact ensureUserExists_count_one _ u now (by omega)
  · intro hany
    have hid : (newUserRow u now).id = u.id := rfl
    simp only [provStep, insertUserRow, hid, hany, if_pos]
  · cases ht : truthy (extractToken req) with
    | false => simp [authenticateUser, ht]
    | true =>
      cases hv : verify ((extractToken req).getD "") with
      | some j => simp [authenticateUser, ht, hv]
      | none =>
        cases he : (authority ((extractToken req).getD "")).error <;>
          cases hu : (authority ((extractToken req).getD "")).user <;>
            simp [authenticateUser, ht, hv, he, hu]

/-- A pre-existing row for `exUser`. -/
def exRowConflict : UserRow := newUserRow exUser "t0"

/-- C9 witness: the race schedule lookup/lookup/insert/insert starting
from an empty table, with a conflicting table for the swallowed-conflict
part and two different table states for the middleware-independence part. -/
theorem c9_witness :
    countId [] exUser.id ≤ 1 ∧
    (runSched exUser "t0" [true, false, true, false] .lookup .lookup []).fst = .finished ∧
    (runSched exUser "t0" [true, false, true, false] .lookup .lookup []).snd.fst = .finished ∧
    (countId (runSched exUser "t0" [true, false, true, false] .lookup .lookup []).snd.snd
        exUser.id = 1 ∧
     (ensureUserExists [] exUser true "t0").snd = none ∧
     (ensureUserExists (ensureUserExists [] exUser true "t0").fst exUser true "t0").snd = none ∧
     countId (ensureUserExists (ensureUserExists [] exUser true "t0").fst exUser true "t0").fst
        exUser.id = 1 ∧
     (provStep exUser "t0" [exRowConflict] (.insertRow true)).fst = .finished ∧
     ([exRowConflict].any (fun r => r.id == exUser.id) = true →
       (provStep exUser "t0" [exRowConflict] (.insertRow true)).snd = [exRowConflict]) ∧
     (authenticateUser cookieReq verifyAll authorityOk [] true "t0").outcome =
       (authenticateUser cookieReq verifyAll authorityOk [exRowConflict] false "t1").outcome) :=
  ⟨by decide, by decide, by decide,
   c9_ensure_idempotent exUser "t0" [] [exRowConflict] [true, false, true, false]
     cookieReq verifyAll authorityOk [] [exRowConflict] true false "t0" "t1"
     (by decide) (by decide) (by decide)⟩

end NotesApp
